import Mathlib

/-!
Verification of the `axe` alert-routing tool.

This file shallowly embeds the core of the repository:

* `src/axe/route_evaluator.py` — the `Route` class (matcher evaluation) and
  the `RouteEvaluator` class (recursive tree traversal);
* `src/axe/tree.py` — the display-oriented `Route` class (only its
  construction defaults matter here);
* `src/axe/config_manager.py` — receiver registration, route-reference
  validation, fragment processing, environment-variable substitution and the
  final fatal/non-fatal decision of `ConfigManager.render`.

Python's `re` module is an external library; calls `re.search(pattern, value)`
are modelled by an abstract engine `research : String → String → Option Bool`
where `Option.none` models `re.error` being raised on an invalid pattern
(`some b` is the truthiness of the match object).  The one concrete regular
expression of the source, the matcher-string parser
`^\s*([a-zA-Z_][a-zA-Z0-9_]*)\s*([=!~]+)\s*(.*)\s*$`, is implemented directly
(`matchRegexParse`).
-/

namespace Axe

/-- Python whitespace class `\s` for the ASCII range: space, tab, newline,
carriage return, vertical tab, form feed. -/
def isPyWs (c : Char) : Bool :=
  c == ' ' || c == '\t' || c == '\n' || c == '\r' || c == '\x0b' || c == '\x0c'

/-- Character class `[a-zA-Z_]` (first character of a matcher label). -/
def isIdentStart (c : Char) : Bool :=
  ('a' ≤ c && c ≤ 'z') || ('A' ≤ c && c ≤ 'Z') || c == '_'

/-- Character class `[a-zA-Z0-9_]` (subsequent characters of a matcher label). -/
def isIdentChar (c : Char) : Bool :=
  isIdentStart c || ('0' ≤ c && c ≤ '9')

/-- Character class `[=!~]` (operator characters of a matcher string). -/
def isOpChar (c : Char) : Bool :=
  c == '=' || c == '!' || c == '~'

/-- Model of `alert_labels.get(key, "")`: first binding wins, absent keys give
the empty string (`route_evaluator.py`, lines 43, 49, 82). -/
def lookupD (labels : List (String × String)) (key : String) : String :=
  match labels.find? (fun kv => kv.1 == key) with
  | some kv => kv.2
  | none => ""

/-- Embedding of `re.match(r"^\s*([a-zA-Z_][a-zA-Z0-9_]*)\s*([=!~]+)\s*(.*)\s*$",
matcher_str)` (`route_evaluator.py`, lines 72-74).  All quantifiers of the
pattern are greedy; `.` matches every character except `'\n'`; the final
`\s*$` succeeds exactly when everything after the (greedy) `.*` group is
whitespace.  Returns the three captured groups. -/
def matchRegexParse (s : String) : Option (String × String × String) :=
  let cs := s.data.dropWhile isPyWs
  match cs with
  | [] => none
  | c :: _ =>
    if isIdentStart c then
      let label := cs.takeWhile isIdentChar
      let cs1 := (cs.dropWhile isIdentChar).dropWhile isPyWs
      let op := cs1.takeWhile isOpChar
      if op.isEmpty then none
      else
        let r := (cs1.dropWhile isOpChar).dropWhile isPyWs
        let value := r.takeWhile (fun c => c != '\n')
        let tail := r.dropWhile (fun c => c != '\n')
        if tail.all isPyWs then
          some (String.mk label, String.mk op, String.mk value)
        else none
    else none

/-- Embedding of the quote-stripping step of `_evaluate_matcher_string`
(`route_evaluator.py`, lines 84-86): `pattern_or_value[1:-1]` when the value
both starts and ends with a double quote. -/
def stripQuotes (cs : List Char) : List Char :=
  if cs.head? == some '"' && cs.getLast? == some '"' then
    (cs.drop 1).dropLast
  else cs

/-- Truthiness of `re.search` wrapped in `try/except re.error` returning
`False` on error: `bool(re.search(pattern, value))` with invalid patterns
evaluating to `False`. -/
def searchBool (research : String → String → Option Bool) (pattern value : String) : Bool :=
  match research pattern value with
  | some b => b
  | none => false

/-- Embedding of `Route._evaluate_matcher_string` (`route_evaluator.py`,
lines 68-116).  A matcher string that does not match the parsing regex, an
unknown operator, or an invalid regex pattern (engine returns `none`,
modelling `re.error`) all evaluate to `false`. -/
def evaluateMatcherString (research : String → String → Option Bool)
    (matcherStr : String) (alertLabels : List (String × String)) : Bool :=
  match matchRegexParse matcherStr with
  | none => false
  | some (label, op, rawValue) =>
    let alertValue := lookupD alertLabels label
    let patternOrValue := String.mk (stripQuotes rawValue.data)
    if op == "=" then alertValue == patternOrValue
    else if op == "!=" then alertValue != patternOrValue
    else if op == "=~" then searchBool research patternOrValue alertValue
    else if op == "!~" then
      match research patternOrValue alertValue with
      | some b => !b
      | none => false
    else false

/-- The routing tree node of `route_evaluator.py` (class `Route`): `receiver`,
`group_by`, `match`, `match_re`, `matchers`, `continue` flag and child routes.
The `parent` back-reference is not stored; it only determines the `continue`
default at construction (see `buildRoute`). -/
inductive Route where
  | mk (receiver : String) (groupBy : List String)
      (matchKVs : List (String × String)) (matchRe : List (String × String))
      (matchers : List String) (continueFlag : Bool) (routes : List Route)

def Route.receiver : Route → String
  | .mk r _ _ _ _ _ _ => r

def Route.groupBy : Route → List String
  | .mk _ g _ _ _ _ _ => g

def Route.matchKVs : Route → List (String × String)
  | .mk _ _ m _ _ _ _ => m

def Route.matchRe : Route → List (String × String)
  | .mk _ _ _ m _ _ _ => m

def Route.matchers : Route → List String
  | .mk _ _ _ _ m _ _ => m

def Route.continueFlag : Route → Bool
  | .mk _ _ _ _ _ c _ => c

def Route.routes : Route → List Route
  | .mk _ _ _ _ _ _ rs => rs

/-- Embedding of `Route.matches_alert` (`route_evaluator.py`, lines 35-66):
the conjunction of all `match` (exact equality), `match_re` (regex search,
invalid patterns failing closed) and `matchers` constraints. -/
def matchesAlert (research : String → String → Option Bool) (route : Route)
    (alertLabels : List (String × String)) : Bool :=
  (route.matchKVs.all fun kv => lookupD alertLabels kv.1 == kv.2) &&
  (route.matchRe.all fun kv => searchBool research kv.2 (lookupD alertLabels kv.1)) &&
  (route.matchers.all fun m => evaluateMatcherString research m alertLabels)

mutual
/-- Embedding of `RouteEvaluator._traverse_and_match_recursive`
(`route_evaluator.py`, lines 135-224).  The Python method mutates a shared
set; here the second component is the list of receivers this call adds, in
insertion order.  The first component is the boolean return value: whether
this route itself matched. -/
def traverseAndMatch (research : String → String → Option Bool)
    (alertLabels : List (String × String)) : Route → Bool × List String
  | .mk recv gb m mre ms cont children =>
    if matchesAlert research (.mk recv gb m mre ms cont children) alertLabels then
      let gc := goChildren research alertLabels children
      (true, gc.2 ++ if gc.1 then [] else [recv])
    else (false, [])

/-- Embedding of the `for child_route in current_route.routes:` loop of
`_traverse_and_match_recursive` (`route_evaluator.py`, lines 185-213).  The
first component is `child_handled_and_stopped`; the loop `break`s at the
first child whose recursive call returned `True` and whose `continue` flag is
false, so later siblings are never evaluated. -/
def goChildren (research : String → String → Option Bool)
    (alertLabels : List (String × String)) : List Route → Bool × List String
  | [] => (false, [])
  | c :: rest =>
    let res := traverseAndMatch research alertLabels c
    if res.1 && !(Route.continueFlag c) then (true, res.2)
    else
      let restRes := goChildren research alertLabels rest
      (restRes.1, res.2 ++ restRes.2)
end

/-- Structural dedup keeping first occurrences: the distinct elements of `l`,
modelling the contents of the Python `set`. -/
def dedupAcc (seen : List String) : List String → List String
  | [] => []
  | x :: xs => if x ∈ seen then dedupAcc seen xs else x :: dedupAcc (x :: seen) xs

/-- Strict lexicographic comparison of strings by code point, as Python
compares strings in `sorted`. -/
def strLtB (a b : String) : Bool :=
  go a.data b.data
where
  go : List Char → List Char → Bool
  | [], [] => false
  | [], _ :: _ => true
  | _ :: _, [] => false
  | a :: as, b :: bs => if a < b then true else if b < a then false else go as bs

/-- Insertion into an ascending list. -/
def insertSorted (x : String) : List String → List String
  | [] => [x]
  | y :: ys => if strLtB y x then y :: insertSorted x ys else x :: y :: ys

/-- Model of Python's `sorted(list(matched_receivers))` where
`matched_receivers` is a set: the distinct elements in ascending order. -/
def sortedDedup (l : List String) : List String :=
  (dedupAcc [] l).foldr insertSorted []

/-- Embedding of `RouteEvaluator.evaluate_alert` (`route_evaluator.py`,
lines 124-129): traverse from the root and return `sorted(list(set))` of the
collected receivers. -/
def evaluateAlert (research : String → String → Option Bool) (root : Route)
    (alertLabels : List (String × String)) : List String :=
  sortedDedup (traverseAndMatch research alertLabels root).2

/-- A receiver name lies on a chain of nodes from `root` each of which matches
the alert: either it is the receiver of a matching node reached from the root
through matching ancestors. -/
inductive MatchedChain (research : String → String → Option Bool)
    (alertLabels : List (String × String)) : Route → String → Prop where
  | here (r : Route) :
      matchesAlert research r alertLabels = true →
      MatchedChain research alertLabels r (Route.receiver r)
  | child (r c : Route) (x : String) :
      matchesAlert research r alertLabels = true →
      c ∈ Route.routes r →
      MatchedChain research alertLabels c x →
      MatchedChain research alertLabels r x

/-- A route document mapping, holding the keys the two `Route.__init__`
implementations read.  `Option` fields model key presence: `none` means the
key is absent and `data.get` falls back to its default. -/
inductive RouteData where
  | mk (receiver : Option String) (groupBy : List String)
      (matchKVs : List (String × String)) (matchRe : List (String × String))
      (matchers : List String) (continueFlag : Option Bool)
      (groupWait groupInterval repeatInterval : String)
      (routes : List RouteData)

def RouteData.receiver : RouteData → Option String
  | .mk r _ _ _ _ _ _ _ _ _ => r

def RouteData.continueFlagD : RouteData → Option Bool
  | .mk _ _ _ _ _ c _ _ _ _ => c

/-- Embedding of `Route.__init__` of `route_evaluator.py` (lines 10-29):
`receiver` defaults to `"default"`, `continue` defaults to `True` when
`parent is None` (the root) and to `False` otherwise; children are built with
`self` as parent, hence as non-root nodes. -/
def buildRoute (isRoot : Bool) : RouteData → Route
  | .mk recv gb m mre ms cont _ _ _ rts =>
    Route.mk (recv.getD "default") gb m mre ms
      (cont.getD (if isRoot then true else false))
      (rts.attach.map fun r => buildRoute false r.1)
decreasing_by
  have := List.sizeOf_lt_of_mem r.2
  simp only [RouteData.mk.sizeOf_spec]
  omega

/-- The display-oriented route node of `tree.py` (class `Route`). -/
inductive TreeRoute where
  | mk (receiver : String) (groupBy : List String)
      (matchKVs : List (String × String)) (matchRe : List (String × String))
      (matchers : List String) (continueFlag : Bool)
      (groupWait groupInterval repeatInterval : String)
      (routes : List TreeRoute)

def TreeRoute.receiver : TreeRoute → String
  | .mk r _ _ _ _ _ _ _ _ _ => r

/-- Embedding of `Route.__init__` of `tree.py` (lines 8-20): `receiver`
defaults to the empty string and `continue` defaults to `False`, for the root
and non-root nodes alike (the `parent` argument is stored but never consulted
for defaults). -/
def buildTreeRoute : RouteData → TreeRoute
  | .mk recv gb m mre ms cont gw gi ri rts =>
    TreeRoute.mk (recv.getD "") gb m mre ms (cont.getD false) gw gi ri
      (rts.attach.map fun r => buildTreeRoute r.1)
decreasing_by
  have := List.sizeOf_lt_of_mem r.2
  simp only [RouteData.mk.sizeOf_spec]
  omega

/-- The head of the list, when present, fails the predicate: a greedy scan
stops immediately at such a list. -/
def headNotP (p : Char → Bool) : List Char → Prop
  | [] => True
  | x :: _ => p x = false

/-- A parsed YAML/JSON scalar or container, as `config_manager.py` receives
them from `yaml.safe_load`. -/
inductive PyVal where
  | str (s : String)
  | int (n : Int)
  | bool (b : Bool)
  | none
  | list (xs : List PyVal)
  | dict (kvs : List (String × PyVal))

/-- Python truthiness (`if not receiver_name:` etc.) for the values of
`PyVal`. -/
def truthy : PyVal → Bool
  | .str s => s != ""
  | .int n => n != 0
  | .bool b => b
  | .none => false
  | .list xs => !xs.isEmpty
  | .dict kvs => !kvs.isEmpty

def PyVal.isStr : PyVal → Bool
  | .str _ => true
  | _ => false

/-- The string payload of a `PyVal.str`; only consulted after `isStr`. -/
def PyVal.strVal : PyVal → String
  | .str s => s
  | _ => ""

/-- Python's `type(x).__name__` for the modelled values. -/
def pyTypeName : PyVal → String
  | .str _ => "str"
  | .int _ => "int"
  | .bool _ => "bool"
  | .none => "NoneType"
  | .list _ => "list"
  | .dict _ => "dict"

/-- Python's `repr` for the modelled values (escaping of quotes and special
characters inside strings is not modelled; the receivers exercised here
contain none). -/
def pyRepr : PyVal → String
  | .str s => "\x27" ++ s ++ "\x27"
  | .int n => toString n
  | .bool b => cond b "True" "False"
  | .none => "None"
  | .list xs => "[" ++ String.intercalate ", " (xs.attach.map fun x => pyRepr x.1) ++ "]"
  | .dict kvs => "\x7b" ++
      String.intercalate ", "
        (kvs.attach.map fun kv => "\x27" ++ kv.1.1 ++ "\x27: " ++ pyRepr kv.1.2) ++
      "\x7d"
decreasing_by
  · have := List.sizeOf_lt_of_mem x.2
    simp only [PyVal.list.sizeOf_spec]
    omega
  · have h := List.sizeOf_lt_of_mem kv.2
    have : sizeOf kv.1.2 < sizeOf kv.1 := by
      obtain ⟨a, b⟩ := kv.1
      simp only [Prod.mk.sizeOf_spec]
      omega
    simp only [PyVal.dict.sizeOf_spec]
    omega

/-- Python's `str(x)` (used by f-string interpolation) for the modelled
values. -/
def pyStr (v : PyVal) : String :=
  match v with
  | .str s => s
  | _ => pyRepr v

/-- Model of `some_dict.get(key)`: `none` when the key is absent. -/
def pyGet (kvs : List (String × PyVal)) (key : String) : Option PyVal :=
  (kvs.find? fun kv => kv.1 == key).map (fun kv => kv.2)

/-- One entry of `ConfigManager.all_defined_receivers`
(`config_manager.py`, line 86): the receiver document and its source file,
`{"data": ..., "source_file": ...}`. -/
structure MasterEntry where
  data : List (String × PyVal)
  sourceFile : String

/-- Lookup in the master receiver map (`receiver_name in
self.all_defined_receivers` and indexing). -/
def masterLookup (master : List (String × MasterEntry)) (name : String) :
    Option MasterEntry :=
  (master.find? fun e => e.1 == name).map (fun e => e.2)

/-- The issue text of `_add_receiver_to_master_list` for a missing `name`
key. -/
def missingNameMsg (sourceFile : String) : String :=
  "Error: Receiver definition in \x27" ++ sourceFile ++ "\x27 is missing the \x27name\x27 key."

/-- The issue text of `_add_receiver_to_master_list` for a non-string (but
truthy) `name` value. -/
def invalidNameMsg (receiverName : PyVal) (sourceFile : String) : String :=
  "Error: Receiver name \x27" ++ pyStr receiverName ++ "\x27 in \x27" ++ sourceFile ++
    "\x27 is invalid or empty."

/-- The issue text of `_add_receiver_to_master_list` for a duplicate receiver
name, naming the source of the first definition. -/
def duplicateNameMsg (name existingSource sourceFile : String) : String :=
  "Error: Duplicate receiver name \x27" ++ name ++ "\x27 found. " ++
    "First defined in \x27" ++ existingSource ++ "\x27, duplicated in \x27" ++ sourceFile ++ "\x27."

/-- Embedding of `ConfigManager._validate_single_receiver_config`
(`config_manager.py`, lines 125-159): the issues appended for one receiver
document (webhook URL checks). -/
def validateSingleReceiverConfig (receiverData : List (String × PyVal))
    (sourceFile : String) : List String :=
  let receiverName := match pyGet receiverData "name" with
    | some v => pyStr v
    | Option.none => "N/A"
  match pyGet receiverData "webhook_configs" with
  | Option.none => []
  | some (.list ws) =>
    (ws.enum.map fun wc =>
      match wc.2 with
      | .dict kvs =>
        match pyGet kvs "url" with
        | some u =>
          if truthy u then []
          else ["Error: Webhook config " ++ toString wc.1 ++ " for receiver \x27" ++
            receiverName ++ "\x27 in file \x27" ++ sourceFile ++
            "\x27 is missing a \x27url\x27 or it\x27s empty in \x27" ++ sourceFile ++ "\x27."]
        | Option.none =>
          ["Error: Webhook config " ++ toString wc.1 ++ " for receiver \x27" ++
            receiverName ++ "\x27 in file \x27" ++ sourceFile ++
            "\x27 is missing a \x27url\x27 or it\x27s empty in \x27" ++ sourceFile ++ "\x27."]
      | _ =>
        ["Error: Webhook config " ++ toString wc.1 ++ " for receiver \x27" ++
          receiverName ++ "\x27 in file \x27" ++ sourceFile ++ "\x27 is not a dictionary."]
      ).flatten
  | some _ =>
    ["Error: \x27webhook_configs\x27 for receiver \x27" ++ receiverName ++ "\x27 in file \x27" ++
      sourceFile ++ "\x27 must be a list."]

/-- Embedding of `ConfigManager._add_receiver_to_master_list`
(`config_manager.py`, lines 89-123).  State is passed explicitly: the master
receiver map (insertion-ordered) and the accumulated validation issues.  A
falsy `name` (absent, `None`, empty, …) appends the missing-name issue and
registers nothing; a truthy non-string appends the invalid-name issue; a
duplicate appends the duplicate issue naming the original source and leaves
the map unchanged; otherwise the receiver is registered and its content
validated. -/
def addReceiverToMasterList (master : List (String × MasterEntry))
    (issues : List String) (receiverData : List (String × PyVal))
    (sourceFile : String) : List (String × MasterEntry) × List String :=
  let receiverName := (pyGet receiverData "name").getD PyVal.none
  if !truthy receiverName then
    (master, issues ++ [missingNameMsg sourceFile])
  else if !receiverName.isStr || receiverName.strVal == "" then
    (master, issues ++ [invalidNameMsg receiverName sourceFile])
  else
    let name := receiverName.strVal
    match masterLookup master name with
    | some existing =>
      (master, issues ++ [duplicateNameMsg name existing.sourceFile sourceFile])
    | Option.none =>
      (master ++ [(name, ⟨receiverData, sourceFile⟩)],
        issues ++ validateSingleReceiverConfig receiverData sourceFile)

/-- The issue text of `replace_env_vars` for an unresolved environment
variable. -/
def envVarMsg (envVarName original : String) : String :=
  "Error: Required environment variable \x27" ++ envVarName ++
    "\x27 not found for string \x27" ++ original ++ "\x27."

/-- Boolean prefix test on character lists. -/
def startsWithList : List Char → List Char → Bool
  | [], _ => true
  | _ :: _, [] => false
  | a :: as, b :: bs => a == b && startsWithList as bs

/-- Python's `s.startswith(pre)`, implemented structurally over the character
data. -/
def pyStartsWith (s pre : String) : Bool :=
  startsWithList pre.data s.data

/-- Python's `str.upper` for the ASCII range (environment-variable names in
the modelled documents are ASCII). -/
def pyUpper (s : String) : String :=
  String.mk (s.data.map fun c =>
    if 'a' ≤ c && c ≤ 'z' then Char.ofNat (c.toNat - 32) else c)

mutual
/-- Embedding of `ConfigManager.replace_env_vars` (`config_manager.py`,
lines 368-383) over an explicit process environment: scalar strings beginning
with `$` are looked up (remainder upper-cased); an unresolved reference keeps
the literal string and appends an issue.  Containers are rebuilt
recursively in iteration order, threading the issue list. -/
def replaceEnvVars (env : List (String × String)) (issues : List String) :
    PyVal → PyVal × List String
  | .dict kvs =>
    let r := replaceEnvVarsKVs env issues kvs
    (.dict r.1, r.2)
  | .list xs =>
    let r := replaceEnvVarsList env issues xs
    (.list r.1, r.2)
  | .str s =>
    if pyStartsWith s "$" then
      let envVarName := pyUpper (s.drop 1)
      match (env.find? fun e => e.1 == envVarName) with
      | some e => (.str e.2, issues)
      | Option.none => (.str s, issues ++ [envVarMsg envVarName s])
    else (.str s, issues)
  | v => (v, issues)

/-- The list comprehension `[self.replace_env_vars(elem) for elem in data]`. -/
def replaceEnvVarsList (env : List (String × String)) (issues : List String) :
    List PyVal → List PyVal × List String
  | [] => ([], issues)
  | x :: xs =>
    let r := replaceEnvVars env issues x
    let rs := replaceEnvVarsList env r.2 xs
    (r.1 :: rs.1, rs.2)

/-- The dict comprehension
`{k: self.replace_env_vars(v) for k, v in data.items()}`. -/
def replaceEnvVarsKVs (env : List (String × String)) (issues : List String) :
    List (String × PyVal) → List (String × PyVal) × List String
  | [] => ([], issues)
  | (k, v) :: kvs =>
    let r := replaceEnvVars env issues v
    let rs := replaceEnvVarsKVs env r.2 kvs
    ((k, r.1) :: rs.1, rs.2)
end

/-- Membership `needle in xs` for a Python list, where `needle` is a string:
`str.__eq__` is `False` against any non-string element. -/
def pyInList (needle : String) (xs : List PyVal) : Bool :=
  xs.any fun x => match x with
    | .str s => s == needle
    | _ => false

/-- Boolean substring test on character lists. -/
def infixList (needle : List Char) : List Char → Bool
  | [] => needle.isEmpty
  | c :: rest => startsWithList needle (c :: rest) || infixList needle rest

/-- Python's `needle in hay` for strings: substring containment. -/
def strContainsSub (hay needle : String) : Bool :=
  infixList needle.data hay.data

def invalidReceiverAtMsg (path sourceFile : String) : String :=
  "Error: Invalid or empty receiver name at \x27" ++ path ++ ".receiver\x27 in file \x27" ++
    sourceFile ++ "\x27."

def undefinedReceiverMsg (name path sourceFile : String) : String :=
  "Error: Receiver \x27" ++ name ++ "\x27 referenced at \x27" ++ path ++ "\x27 in file \x27" ++
    sourceFile ++ "\x27 is not defined in any \x27receivers\x27 section."

def routesMustBeListMsg (path sourceFile : String) : String :=
  "Error: \x27routes\x27 at \x27" ++ path ++ ".routes\x27 in file \x27" ++ sourceFile ++
    "\x27 must be a list."

def subRouteNotDictMsg (path : String) (i : Nat) (sourceFile : String) : String :=
  "Error: Sub-route at \x27" ++ path ++ ".routes[" ++ toString i ++ "]\x27 in file \x27" ++
    sourceFile ++ "\x27 is not a dictionary."

/-- Embedding of the `receiver` half of
`ConfigManager._validate_route_receiver_reference` (`config_manager.py`,
lines 167-179): `"receiver" in route_node` followed by
`route_node["receiver"]`, per Python semantics of the node's runtime type
(`in` on a string is a substring test and string indexing by a string raises
`TypeError`; `in` on a non-container raises `TypeError`).  Returns the issues
appended and whether the function `return`s early (invalid name). -/
def receiverPhase (master : List (String × MasterEntry)) (node : PyVal)
    (path sourceFile : String) : Except String (List String × Bool) :=
  match node with
  | .dict kvs =>
    match pyGet kvs "receiver" with
    | Option.none => .ok ([], false)
    | some rv =>
      if !rv.isStr || rv.strVal == "" then
        .ok ([invalidReceiverAtMsg path sourceFile], true)
      else if (masterLookup master rv.strVal).isNone then
        .ok ([undefinedReceiverMsg rv.strVal path sourceFile], false)
      else .ok ([], false)
  | .str s =>
    if strContainsSub s "receiver" then
      .error "TypeError: string indices must be integers"
    else .ok ([], false)
  | .list xs =>
    if pyInList "receiver" xs then
      .error "TypeError: list indices must be integers or slices, not str"
    else .ok ([], false)
  | other =>
    .error ("TypeError: argument of type \x27" ++ pyTypeName other ++ "\x27 is not iterable")

mutual
/-- Embedding of `ConfigManager._validate_route_receiver_reference`
(`config_manager.py`, lines 161-195): the receiver phase above followed by
`"routes" in route_node` / `route_node["routes"]` and the recursive walk over
sub-routes.  `Except.error` models an uncaught Python exception. -/
def validateRouteRef (master : List (String × MasterEntry)) (node : PyVal)
    (path sourceFile : String) : Except String (List String) :=
  match receiverPhase master node path sourceFile with
  | .error e => .error e
  | .ok (is1, true) => .ok is1
  | .ok (is1, false) =>
    match node with
    | .dict kvs =>
      match h : pyGet kvs "routes" with
      | Option.none => .ok is1
      | some (.list subs) =>
        match validateSubRoutes master path sourceFile 0 subs with
        | .error e => .error e
        | .ok is2 => .ok (is1 ++ is2)
      | some _ => .ok (is1 ++ [routesMustBeListMsg path sourceFile])
    | .str s =>
      if strContainsSub s "routes" then
        .error "TypeError: string indices must be integers"
      else .ok is1
    | .list xs =>
      if pyInList "routes" xs then
        .error "TypeError: list indices must be integers or slices, not str"
      else .ok is1
    | other =>
      .error ("TypeError: argument of type \x27" ++ pyTypeName other ++ "\x27 is not iterable")
termination_by sizeOf node
decreasing_by
  · have h2 : sizeOf subs < 1 + sizeOf kvs := by
      unfold pyGet at h
      cases hf : List.find? (fun kv => kv.1 == "routes") kvs with
      | none => simp [hf] at h
      | some kv =>
        simp only [hf, Option.map_some', Option.some.injEq] at h
        have hmem := List.mem_of_find?_eq_some hf
        have hlt := List.sizeOf_lt_of_mem hmem
        obtain ⟨k', v⟩ := kv
        have h3 : v = PyVal.list subs := h
        rw [h3] at hlt
        simp only [Prod.mk.sizeOf_spec, PyVal.list.sizeOf_spec] at hlt
        omega
    simp only [PyVal.dict.sizeOf_spec]
    omega

/-- The `for i, sub_route in enumerate(route_node["routes"])` loop of
`_validate_route_receiver_reference` (`config_manager.py`, lines 187-195):
non-dictionary entries append an issue and are skipped, dictionaries are
validated recursively. -/
def validateSubRoutes (master : List (String × MasterEntry))
    (path sourceFile : String) (i : Nat) :
    List PyVal → Except String (List String)
  | [] => .ok []
  | sub :: rest =>
    match sub with
    | .dict skvs =>
      match validateRouteRef master (.dict skvs)
          (path ++ ".routes[" ++ toString i ++ "]") sourceFile with
      | .error e => .error e
      | .ok is =>
        match validateSubRoutes master path sourceFile (i + 1) rest with
        | .error e => .error e
        | .ok is2 => .ok (is ++ is2)
    | _ =>
      match validateSubRoutes master path sourceFile (i + 1) rest with
      | .error e => .error e
      | .ok is2 => .ok ([subRouteNotDictMsg path i sourceFile] ++ is2)
termination_by subs => sizeOf subs
decreasing_by
  · simp only [List.cons.sizeOf_spec, PyVal.dict.sizeOf_spec]
    omega
  · simp only [List.cons.sizeOf_spec]
    omega
  · simp only [List.cons.sizeOf_spec]
    omega
end

/-- The `for i, route_node in enumerate(component_data)` loop of
`find_and_load_routing_configs` for a `routes` component that is a list
(`config_manager.py`, lines 315-319). -/
def validateRoutesList (master : List (String × MasterEntry))
    (sourceFile : String) (i : Nat) : List PyVal → Except String (List String)
  | [] => .ok []
  | node :: rest =>
    match validateRouteRef master node ("routes[" ++ toString i ++ "]") sourceFile with
    | .error e => .error e
    | .ok is =>
      match validateRoutesList master sourceFile (i + 1) rest with
      | .error e => .error e
      | .ok is2 => .ok (is ++ is2)

/-- The same loop when `component_data` is a dictionary: Python's `enumerate`
iterates over the dictionary's keys, so each key string is passed to
`_validate_route_receiver_reference` as the route node. -/
def validateDictKeysLoop (master : List (String × MasterEntry))
    (sourceFile : String) (i : Nat) : List String → Except String (List String)
  | [] => .ok []
  | key :: rest =>
    match validateRouteRef master (.str key) ("routes[" ++ toString i ++ "]") sourceFile with
    | .error e => .error e
    | .ok is =>
      match validateDictKeysLoop master sourceFile (i + 1) rest with
      | .error e => .error e
      | .ok is2 => .ok (is ++ is2)

/-- Embedding of the handling of one fragment file's `routes` component in
`ConfigManager.find_and_load_routing_configs` (`config_manager.py`,
lines 280-327).  A list is validated entry by entry and appended; a single
dictionary is first appended and validated (the wrap-in-a-list branch, lines
286-300), after which control falls through to the
`elif component_name == "routes":` loop — which iterates the dictionary's
keys — and to `routing_config[component_name].extend(component_data)` —
which extends with the keys; any other type appends a fatal issue and stops
processing the file's components (`break`).  `routesAcc` and `issues` are the
accumulated `routing_config["routes"]` and `self.validation_issues`. -/
def processRoutesComponent (master : List (String × MasterEntry))
    (routesAcc : List PyVal) (issues : List String) (componentData : PyVal)
    (filePath : String) : Except String (List PyVal × List String) :=
  match componentData with
  | .list items =>
    match validateRoutesList master filePath 0 items with
    | .error e => .error e
    | .ok is => .ok (routesAcc ++ items, issues ++ is)
  | .dict kvs =>
    match validateRouteRef master (.dict kvs) "route" filePath with
    | .error e => .error e
    | .ok is1 =>
      match validateDictKeysLoop master filePath 0 (kvs.map fun kv => kv.1) with
      | .error e => .error e
      | .ok is2 =>
        .ok (routesAcc ++ [.dict kvs] ++ kvs.map (fun kv => PyVal.str kv.1),
          issues ++ is1 ++ is2)
  | other =>
    .ok (routesAcc, issues ++
      ["Error: Expected a list for \x27routes\x27 in " ++ filePath ++ ", but got " ++
        pyTypeName other ++ ". "])

def rootInvalidReceiverMsg (baseConfigPath : String) : String :=
  "Error: Invalid or empty receiver name at \x27route.receiver\x27 in file \x27" ++
    baseConfigPath ++ "\x27."

def rootUndefinedReceiverMsg (name baseConfigPath : String) : String :=
  "Error: Root receiver \x27" ++ name ++ "\x27 referenced at \x27route.receiver\x27 in file \x27" ++
    baseConfigPath ++ "\x27 is not defined in any \x27receivers\x27 section."

/-- Embedding of the root-receiver cross-check of `ConfigManager.render`
(`config_manager.py`, lines 468-481): the entire check is guarded by
`if routing_config_from_folders.get("routes"):`, i.e. it runs only when at
least one fragment route was discovered; inside, a root route with a
`receiver` key whose value is not a non-empty string, or names an undefined
receiver, appends a fatal issue. -/
def renderRootReceiverCheck (master : List (String × MasterEntry))
    (issues : List String) (rootRoute : List (String × PyVal))
    (fragmentRoutes : List PyVal) (baseConfigPath : String) : List String :=
  if fragmentRoutes.isEmpty then issues
  else
    match pyGet rootRoute "receiver" with
    | Option.none => issues
    | some rv =>
      if !rv.isStr || rv.strVal == "" then
        issues ++ [rootInvalidReceiverMsg baseConfigPath]
      else if (masterLookup master rv.strVal).isNone then
        issues ++ [rootUndefinedReceiverMsg rv.strVal baseConfigPath]
      else issues

/-- Embedding of the fatal-issue scan of `ConfigManager.render`
(`config_manager.py`, lines 521-524): an issue is fatal iff it starts with
`"Error:"`. -/
def hasFatalErrors (issues : List String) : Bool :=
  issues.any fun i => pyStartsWith i "Error:"

/-- Embedding of the final decision of `ConfigManager.render`
(`config_manager.py`, lines 517-542): the output document is written iff no
issue was recorded or none of the recorded issues is fatal. -/
def renderProceedsToWrite (issues : List String) : Bool :=
  issues.isEmpty || !hasFatalErrors issues

@[simp] theorem Route.receiver_mk (r g m mre ms : _) (c : Bool) (rs : List Route) :
    Route.receiver (.mk r g m mre ms c rs) = r := rfl

@[simp] theorem Route.matchKVs_mk (r g m mre ms : _) (c : Bool) (rs : List Route) :
    Route.matchKVs (.mk r g m mre ms c rs) = m := rfl

@[simp] theorem Route.matchRe_mk (r g m mre ms : _) (c : Bool) (rs : List Route) :
    Route.matchRe (.mk r g m mre ms c rs) = mre := rfl

@[simp] theorem Route.matchers_mk (r g m mre ms : _) (c : Bool) (rs : List Route) :
    Route.matchers (.mk r g m mre ms c rs) = ms := rfl

@[simp] theorem Route.continueFlag_mk (r g m mre ms : _) (c : Bool) (rs : List Route) :
    Route.continueFlag (.mk r g m mre ms c rs) = c := rfl

@[simp] theorem Route.routes_mk (r g m mre ms : _) (c : Bool) (rs : List Route) :
    Route.routes (.mk r g m mre ms c rs) = rs := rfl


theorem not_identChar_of_ws {c : Char} (h : isPyWs c = true) :
    isIdentChar c = false := by
  unfold isPyWs at h
  simp only [Bool.or_eq_true, beq_iff_eq] at h
  rcases h with ((((rfl | rfl) | rfl) | rfl) | rfl) | rfl <;> decide

theorem not_op_of_ws {c : Char} (h : isPyWs c = true) : isOpChar c = false := by
  unfold isPyWs at h
  simp only [Bool.or_eq_true, beq_iff_eq] at h
  rcases h with ((((rfl | rfl) | rfl) | rfl) | rfl) | rfl <;> decide

theorem not_identChar_of_op {c : Char} (h : isOpChar c = true) :
    isIdentChar c = false := by
  unfold isOpChar at h
  simp only [Bool.or_eq_true, beq_iff_eq] at h
  rcases h with (rfl | rfl) | rfl <;> decide

theorem not_ws_of_op {c : Char} (h : isOpChar c = true) : isPyWs c = false := by
  unfold isOpChar at h
  simp only [Bool.or_eq_true, beq_iff_eq] at h
  rcases h with (rfl | rfl) | rfl <;> decide

theorem not_ws_of_identStart {c : Char} (h : isIdentStart c = true) :
    isPyWs c = false := by
  rcases Bool.eq_false_or_eq_true (isPyWs c) with ht | hf
  · exfalso
    unfold isPyWs at ht
    simp only [Bool.or_eq_true, beq_iff_eq] at ht
    rcases ht with ((((rfl | rfl) | rfl) | rfl) | rfl) | rfl <;> exact absurd h (by decide)
  · exact hf

theorem not_ws_of_identChar {c : Char} (h : isIdentChar c = true) :
    isPyWs c = false := by
  rcases Bool.eq_false_or_eq_true (isPyWs c) with ht | hf
  · rw [not_identChar_of_ws ht] at h
    cases h
  · exact hf

theorem identChar_of_identStart {c : Char} (h : isIdentStart c = true) :
    isIdentChar c = true := by
  unfold isIdentChar
  rw [h]
  rfl

theorem data_mk (l : List Char) : (String.mk l).data = l := rfl

theorem takeWhile_append_stop (p : Char → Bool) :
    ∀ (a b : List Char), (∀ x ∈ a, p x = true) → headNotP p b →
      List.takeWhile p (a ++ b) = a := by
  intro a
  induction a with
  | nil =>
    intro b _ hb
    cases b with
    | nil => rfl
    | cons y ys =>
      simp only [List.nil_append, List.takeWhile_cons]
      simp [headNotP] at hb
      simp [hb]
  | cons x xs ih =>
    intro b ha hb
    have hx := ha x (List.mem_cons_self _ _)
    simp only [List.cons_append, List.takeWhile_cons, hx, if_true]
    rw [ih b (fun y hy => ha y (List.mem_cons_of_mem _ hy)) hb]

theorem dropWhile_append_stop (p : Char → Bool) :
    ∀ (a b : List Char), (∀ x ∈ a, p x = true) → headNotP p b →
      List.dropWhile p (a ++ b) = b := by
  intro a
  induction a with
  | nil =>
    intro b _ hb
    cases b with
    | nil => rfl
    | cons y ys =>
      simp only [List.nil_append, List.dropWhile_cons]
      simp [headNotP] at hb
      simp [hb]
  | cons x xs ih =>
    intro b ha hb
    have hx := ha x (List.mem_cons_self _ _)
    simp only [List.cons_append, List.dropWhile_cons, hx, if_true]
    exact ih b (fun y hy => ha y (List.mem_cons_of_mem _ hy)) hb

theorem dropWhile_append_all (p : Char → Bool) :
    ∀ (a b : List Char), (∀ x ∈ a, p x = true) →
      List.dropWhile p (a ++ b) = List.dropWhile p b := by
  intro a
  induction a with
  | nil => intro b _; rfl
  | cons x xs ih =>
    intro b ha
    have hx := ha x (List.mem_cons_self _ _)
    simp only [List.cons_append, List.dropWhile_cons, hx, if_true]
    exact ih b (fun y hy => ha y (List.mem_cons_of_mem _ hy))

theorem takeWhile_all_eq_self (p : Char → Bool) (l : List Char)
    (h : ∀ x ∈ l, p x = true) : List.takeWhile p l = l := by
  induction l with
  | nil => rfl
  | cons x xs ih =>
    simp only [List.takeWhile_cons, h x (List.mem_cons_self _ _), if_true]
    rw [ih (fun y hy => h y (List.mem_cons_of_mem _ hy))]

theorem dropWhile_all_eq_nil (p : Char → Bool) (l : List Char)
    (h : ∀ x ∈ l, p x = true) : List.dropWhile p l = [] := by
  induction l with
  | nil => rfl
  | cons x xs ih =>
    simp only [List.dropWhile_cons, h x (List.mem_cons_self _ _), if_true]
    exact ih (fun y hy => h y (List.mem_cons_of_mem _ hy))

theorem headNotP_append_ws_op {w : List Char} (rest : List Char)
    (hw : ∀ x ∈ w, isPyWs x = true) (hrest : headNotP isOpChar rest) :
    headNotP isOpChar (w ++ rest) := by
  cases w with
  | nil => exact hrest
  | cons y ys =>
    simp only [List.cons_append, headNotP]
    exact not_op_of_ws (hw y (List.mem_cons_self _ _))

/-- Evaluating the parsing regex on a string of the shape
`label ++ op ++ tail`, where `label` is a well-formed identifier, `op` a
nonempty run of operator characters and `tail` does not begin with an
operator character: the label and operator groups are exactly `label` and
`op`, and the value group is computed from `tail`. -/
theorem matchRegexParse_general (w0 w1 : List Char) (c : Char)
    (cs op tail : List Char)
    (hw0 : ∀ x ∈ w0, isPyWs x = true) (hw1 : ∀ x ∈ w1, isPyWs x = true)
    (hc : isIdentStart c = true) (hcs : ∀ x ∈ cs, isIdentChar x = true)
    (hop : op ≠ []) (hopc : ∀ x ∈ op, isOpChar x = true)
    (htail : headNotP isOpChar tail) :
    matchRegexParse (String.mk (w0 ++ (c :: cs) ++ w1 ++ op ++ tail)) =
      (let r := List.dropWhile isPyWs tail
       let value := List.takeWhile (fun x => x != '\n') r
       let t := List.dropWhile (fun x => x != '\n') r
       if t.all isPyWs then some (String.mk (c :: cs), String.mk op, String.mk value)
       else none) := by
  obtain ⟨o, os, rfl⟩ : ∃ o os, op = o :: os := by
    cases op with
    | nil => exact absurd rfl hop
    | cons o os => exact ⟨o, os, rfl⟩
  have ho : isOpChar o = true := hopc o (List.mem_cons_self _ _)
  have hid : headNotP isIdentChar (w1 ++ (o :: (os ++ tail))) := by
    cases w1 with
    | nil => exact not_identChar_of_op ho
    | cons y ys => exact not_identChar_of_ws (hw1 y (List.mem_cons_self _ _))
  have h1 : List.dropWhile isPyWs (w0 ++ (c :: (cs ++ (w1 ++ (o :: (os ++ tail)))))) =
      c :: (cs ++ (w1 ++ (o :: (os ++ tail)))) := by
    rw [dropWhile_append_all isPyWs w0 _ hw0, List.dropWhile_cons,
      not_ws_of_identStart hc]
    simp
  have h2 : List.takeWhile isIdentChar (c :: (cs ++ (w1 ++ (o :: (os ++ tail))))) =
      c :: cs := by
    rw [List.takeWhile_cons, identChar_of_identStart hc]
    simp only [if_true]
    rw [takeWhile_append_stop isIdentChar cs _ hcs hid]
  have h3 : List.dropWhile isIdentChar (c :: (cs ++ (w1 ++ (o :: (os ++ tail))))) =
      w1 ++ (o :: (os ++ tail)) := by
    rw [List.dropWhile_cons, identChar_of_identStart hc]
    simp only [if_true]
    exact dropWhile_append_stop isIdentChar cs _ hcs hid
  have h4 : List.dropWhile isPyWs (w1 ++ (o :: (os ++ tail))) = o :: (os ++ tail) := by
    rw [dropWhile_append_all isPyWs w1 _ hw1, List.dropWhile_cons, not_ws_of_op ho]
    simp
  have h5 : List.takeWhile isOpChar (o :: (os ++ tail)) = o :: os :=
    takeWhile_append_stop isOpChar (o :: os) tail hopc htail
  have h6 : List.dropWhile isOpChar (o :: (os ++ tail)) = tail :=
    dropWhile_append_stop isOpChar (o :: os) tail hopc htail
  unfold matchRegexParse
  simp only [data_mk, List.append_assoc, List.cons_append]
  rw [h1]
  simp only [hc, if_true, h2, h3, h4, h5, h6]
  simp

theorem traverseAndMatch_fst (research : String → String → Option Bool)
    (labels : List (String × String)) (r : Route) :
    (traverseAndMatch research labels r).1 = matchesAlert research r labels := by
  cases r with
  | mk recv gb m mre ms cont children =>
    simp only [traverseAndMatch]
    split <;> simp_all

theorem traverseAndMatch_eq (research : String → String → Option Bool)
    (labels : List (String × String)) (recv : String) (gb : List String)
    (m mre : List (String × String)) (ms : List String) (cont : Bool)
    (children : List Route)
    (hm : matchesAlert research (.mk recv gb m mre ms cont children) labels = true) :
    traverseAndMatch research labels (.mk recv gb m mre ms cont children) =
      (true, (goChildren research labels children).2 ++
        if (goChildren research labels children).1 then [] else [recv]) := by
  simp only [traverseAndMatch, hm, if_true]

theorem traverseAndMatch_not_matched (research : String → String → Option Bool)
    (labels : List (String × String)) (r : Route)
    (hm : matchesAlert research r labels = false) :
    traverseAndMatch research labels r = (false, []) := by
  cases r with
  | mk recv gb m mre ms cont children =>
    simp only [traverseAndMatch, hm]
    simp

theorem goChildren_cons_no_stop (research : String → String → Option Bool)
    (labels : List (String × String)) (c : Route) (rest : List Route)
    (hc : ¬(matchesAlert research c labels = true ∧ c.continueFlag = false)) :
    goChildren research labels (c :: rest) =
      ((goChildren research labels rest).1,
        (traverseAndMatch research labels c).2 ++ (goChildren research labels rest).2) := by
  have hcond : ((traverseAndMatch research labels c).1 && !c.continueFlag) = false := by
    rw [traverseAndMatch_fst]
    by_cases hm : matchesAlert research c labels = true
    · by_cases hf : c.continueFlag = false
      · exact absurd ⟨hm, hf⟩ hc
      · have hf' : c.continueFlag = true := by
          simpa using hf
        simp [hf']
    · have hm' : matchesAlert research c labels = false := by
        simpa using hm
      simp [hm']
  simp only [goChildren, hcond]
  simp

theorem goChildren_fst_iff (research : String → String → Option Bool)
    (labels : List (String × String)) (l : List Route) :
    (goChildren research labels l).1 = true ↔
      ∃ c ∈ l, matchesAlert research c labels = true ∧ c.continueFlag = false := by
  induction l with
  | nil => simp [goChildren]
  | cons c rest ih =>
    by_cases hstop : matchesAlert research c labels = true ∧ c.continueFlag = false
    · have hcond : ((traverseAndMatch research labels c).1 && !c.continueFlag) = true := by
        rw [traverseAndMatch_fst, hstop.1, hstop.2]
        rfl
      simp only [goChildren, hcond]
      simp only [if_true, true_iff]
      exact ⟨c, List.mem_cons_self _ _, hstop.1, hstop.2⟩
    · rw [goChildren_cons_no_stop research labels c rest hstop]
      simp only [ih]
      constructor
      · rintro ⟨d, hd, hdm, hdf⟩
        exact ⟨d, List.mem_cons_of_mem _ hd, hdm, hdf⟩
      · rintro ⟨d, hd, hdm, hdf⟩
        rcases List.mem_cons.1 hd with rfl | hd'
        · exact absurd ⟨hdm, hdf⟩ hstop
        · exact ⟨d, hd', hdm, hdf⟩

theorem goChildren_cons_stop (research : String → String → Option Bool)
    (labels : List (String × String)) (c : Route) (rest : List Route)
    (hc : matchesAlert research c labels = true) (hf : c.continueFlag = false) :
    goChildren research labels (c :: rest) =
      (true, (traverseAndMatch research labels c).2) := by
  have hcond : ((traverseAndMatch research labels c).1 && !c.continueFlag) = true := by
    rw [traverseAndMatch_fst, hc, hf]
    rfl
  simp only [goChildren, hcond]
  simp

theorem goChildren_append_no_stop (research : String → String → Option Bool)
    (labels : List (String × String)) (pre l : List Route)
    (hpre : ∀ p ∈ pre, ¬(matchesAlert research p labels = true ∧ p.continueFlag = false)) :
    goChildren research labels (pre ++ l) =
      ((goChildren research labels l).1,
        (goChildren research labels pre).2 ++ (goChildren research labels l).2) := by
  induction pre with
  | nil => simp [goChildren]
  | cons p pre' ih =>
    have hp := hpre p (List.mem_cons_self _ _)
    rw [List.cons_append, goChildren_cons_no_stop research labels p (pre' ++ l) hp,
      ih (fun q hq => hpre q (List.mem_cons_of_mem _ hq)),
      goChildren_cons_no_stop research labels p pre' hp]
    simp [List.append_assoc]

theorem mem_goChildren_snd (research : String → String → Option Bool)
    (labels : List (String × String)) (l : List Route) (x : String)
    (hx : x ∈ (goChildren research labels l).2) :
    ∃ c ∈ l, x ∈ (traverseAndMatch research labels c).2 := by
  induction l with
  | nil => simp [goChildren] at hx
  | cons c rest ih =>
    simp only [goChildren] at hx
    by_cases h : ((traverseAndMatch research labels c).1 && !c.continueFlag) = true
    · simp only [h, if_true] at hx
      exact ⟨c, List.mem_cons_self _ _, hx⟩
    · have h' : ((traverseAndMatch research labels c).1 && !c.continueFlag) = false := by
        simpa using h
      simp only [h', Bool.false_eq_true, if_false] at hx
      rcases List.mem_append.1 hx with hl | hr
      · exact ⟨c, List.mem_cons_self _ _, hl⟩
      · obtain ⟨d, hd, hdx⟩ := ih hr
        exact ⟨d, List.mem_cons_of_mem _ hd, hdx⟩

theorem sizeOf_route_pos (r : Route) : 0 < sizeOf r := by
  cases r with
  | mk recv gb m mre ms cont children =>
    simp only [Route.mk.sizeOf_spec]
    omega

theorem mem_traverse_chain_aux (research : String → String → Option Bool)
    (labels : List (String × String)) :
    ∀ (n : Nat) (r : Route), sizeOf r ≤ n → ∀ x,
      x ∈ (traverseAndMatch research labels r).2 →
      MatchedChain research labels r x := by
  intro n
  induction n with
  | zero =>
    intro r hle
    exact absurd hle (by have := sizeOf_route_pos r; omega)
  | succ n ih =>
    intro r hle x hx
    cases r with
    | mk recv gb m mre ms cont children =>
      by_cases hm :
          matchesAlert research (.mk recv gb m mre ms cont children) labels = true
      · rw [traverseAndMatch_eq research labels recv gb m mre ms cont children hm] at hx
        simp only at hx
        rcases List.mem_append.1 hx with hgc | hrecv
        · obtain ⟨c, hc_mem, hc_x⟩ := mem_goChildren_snd research labels children x hgc
          have hsz : sizeOf c ≤ n := by
            have h1 := List.sizeOf_lt_of_mem hc_mem
            simp only [Route.mk.sizeOf_spec] at hle
            omega
          exact MatchedChain.child _ c x hm (by simpa using hc_mem) (ih c hsz x hc_x)
        · by_cases hstop : (goChildren research labels children).1 = true
          · simp [hstop] at hrecv
          · simp only [Bool.not_eq_true] at hstop
            simp only [hstop, Bool.false_eq_true, if_false, List.mem_singleton] at hrecv
            subst hrecv
            exact MatchedChain.here _ hm
      · rw [traverseAndMatch_not_matched research labels _ (by simpa using hm)] at hx
        simp at hx

theorem mem_traverse_chain (research : String → String → Option Bool)
    (labels : List (String × String)) (r : Route) (x : String)
    (hx : x ∈ (traverseAndMatch research labels r).2) :
    MatchedChain research labels r x :=
  mem_traverse_chain_aux research labels (sizeOf r) r le_rfl x hx

theorem mem_insertSorted (x y : String) (l : List String) :
    x ∈ insertSorted y l ↔ x = y ∨ x ∈ l := by
  induction l with
  | nil => simp [insertSorted]
  | cons z zs ih =>
    simp only [insertSorted]
    split <;> simp [List.mem_cons, ih] <;> tauto

theorem mem_foldr_insertSorted (x : String) (l : List String) :
    x ∈ l.foldr insertSorted [] ↔ x ∈ l := by
  induction l with
  | nil => simp
  | cons y ys ih => simp [mem_insertSorted, ih]

theorem mem_dedupAcc (x : String) :
    ∀ (l seen : List String), x ∈ dedupAcc seen l ↔ x ∈ l ∧ x ∉ seen := by
  intro l
  induction l with
  | nil => simp [dedupAcc]
  | cons y ys ih =>
    intro seen
    simp only [dedupAcc]
    by_cases hy : y ∈ seen
    · simp only [hy, if_true, ih, List.mem_cons]
      constructor
      · rintro ⟨h1, h2⟩
        exact ⟨Or.inr h1, h2⟩
      · rintro ⟨rfl | h1, h2⟩
        · exact absurd hy h2
        · exact ⟨h1, h2⟩
    · simp only [hy, if_false, List.mem_cons]
      constructor
      · rintro (rfl | hmem)
        · exact ⟨Or.inl rfl, hy⟩
        · have h := (ih (y :: seen)).1 hmem
          refine ⟨Or.inr h.1, fun hs => h.2 ?_⟩
          exact List.mem_cons_of_mem _ hs
      · rintro ⟨h1, h2⟩
        by_cases hxy : x = y
        · exact Or.inl hxy
        · right
          rcases h1 with rfl | h1
          · exact absurd rfl hxy
          · refine (ih (y :: seen)).2 ⟨h1, fun hs => ?_⟩
            rcases List.mem_cons.1 hs with rfl | hs'
            · exact hxy rfl
            · exact h2 hs'

theorem mem_sortedDedup (x : String) (l : List String) :
    x ∈ sortedDedup l ↔ x ∈ l := by
  unfold sortedDedup
  rw [mem_foldr_insertSorted, mem_dedupAcc]
  simp


theorem startsWithList_append (pre a b : List Char)
    (h : startsWithList pre a = true) : startsWithList pre (a ++ b) = true := by
  induction pre generalizing a with
  | nil => rfl
  | cons p ps ih =>
    cases a with
    | nil => cases h
    | cons x xs =>
      simp only [startsWithList, Bool.and_eq_true] at h
      simp only [List.cons_append, startsWithList, Bool.and_eq_true]
      exact ⟨h.1, ih xs h.2⟩

theorem pyStartsWith_append_left (a b pre : String)
    (h : pyStartsWith a pre = true) : pyStartsWith (a ++ b) pre = true := by
  unfold pyStartsWith at h ⊢
  rw [String.data_append]
  exact startsWithList_append pre.data a.data b.data h

theorem envVarMsg_fatal (n s : String) :
    pyStartsWith (envVarMsg n s) "Error:" = true := by
  unfold envVarMsg
  apply pyStartsWith_append_left
  apply pyStartsWith_append_left
  apply pyStartsWith_append_left
  apply pyStartsWith_append_left
  decide

theorem rootUndefinedReceiverMsg_fatal (n base : String) :
    pyStartsWith (rootUndefinedReceiverMsg n base) "Error:" = true := by
  unfold rootUndefinedReceiverMsg
  apply pyStartsWith_append_left
  apply pyStartsWith_append_left
  apply pyStartsWith_append_left
  apply pyStartsWith_append_left
  decide

theorem rootInvalidReceiverMsg_fatal (base : String) :
    pyStartsWith (rootInvalidReceiverMsg base) "Error:" = true := by
  unfold rootInvalidReceiverMsg
  apply pyStartsWith_append_left
  apply pyStartsWith_append_left
  decide

theorem renderProceedsToWrite_append_fatal (issues : List String) (msg : String)
    (h : pyStartsWith msg "Error:" = true) :
    renderProceedsToWrite (issues ++ [msg]) = false := by
  unfold renderProceedsToWrite hasFatalErrors
  rw [List.any_append]
  have h1 : List.any [msg] (fun i => pyStartsWith i "Error:") = true := by
    simp [h]
  rw [h1]
  cases issues <;> simp

theorem evaluateMatcherString_congr (research : String → String → Option Bool)
    (s1 s2 : String) (labels : List (String × String))
    (h : matchRegexParse s1 = matchRegexParse s2) :
    evaluateMatcherString research s1 labels =
      evaluateMatcherString research s2 labels := by
  unfold evaluateMatcherString
  rw [h]

/-- C1: for every route tree and alert-label mapping, whenever a node matches
the alert, its receiver is appended to the traversal result iff no evaluated
child both matches and has `continue = false`; the evaluated-prefix stop flag
equals the existence of such a child among all children; when no child stops,
the node's receiver (at the root) is included in the final sorted result; and
the `continue` flag of a constructed node defaults to `true` at the root and
`false` at a non-root node. -/
theorem axe_C1 :
    (∀ (research : String → String → Option Bool) (labels : List (String × String))
        (recv : String) (gb : List String) (m mre : List (String × String))
        (ms : List String) (cont : Bool) (children : List Route),
      matchesAlert research (.mk recv gb m mre ms cont children) labels = true →
        (traverseAndMatch research labels (.mk recv gb m mre ms cont children) =
          (true, (goChildren research labels children).2 ++
            if (goChildren research labels children).1 then [] else [recv])) ∧
        ((goChildren research labels children).1 = true ↔
          ∃ c ∈ children, matchesAlert research c labels = true ∧
            c.continueFlag = false) ∧
        ((goChildren research labels children).1 = false →
          recv ∈ evaluateAlert research (.mk recv gb m mre ms cont children) labels) ∧
        ((goChildren research labels children).1 = true →
          evaluateAlert research (.mk recv gb m mre ms cont children) labels =
            sortedDedup (goChildren research labels children).2)) ∧
    (∀ d : RouteData, RouteData.continueFlagD d = Option.none →
      (buildRoute true d).continueFlag = true ∧
      (buildRoute false d).continueFlag = false) := by
  constructor
  · intro research labels recv gb m mre ms cont children hm
    refine ⟨traverseAndMatch_eq research labels recv gb m mre ms cont children hm,
      goChildren_fst_iff research labels children, ?_, ?_⟩
    · intro hno
      unfold evaluateAlert
      rw [traverseAndMatch_eq research labels recv gb m mre ms cont children hm]
      simp only [hno, Bool.false_eq_true, if_false]
      rw [mem_sortedDedup]
      exact List.mem_append.2 (Or.inr (List.mem_singleton.2 rfl))
    · intro hyes
      unfold evaluateAlert
      rw [traverseAndMatch_eq research labels recv gb m mre ms cont children hm]
      simp only [hyes, if_true, List.append_nil]
  · intro d hd
    cases d with
    | mk r g mkv mre ms c gw gi ri rts =>
      have hc : c = Option.none := hd
      subst hc
      constructor <;> simp [buildRoute]

/-- Witness for C1 at a concrete tree: root `"root"` (catch-all) with a
matching child `"a"` that has `continue = false`; the stop flag is set, the
child exists, and the root's receiver is suppressed. -/
theorem axe_C1_witness :
    matchesAlert (fun _ _ => Option.none)
      (.mk "root" [] [] [] [] true [.mk "a" [] [] [] [] false []])
      [("severity", "critical")] = true ∧
    ((goChildren (fun _ _ => Option.none) [("severity", "critical")]
        [Route.mk "a" [] [] [] [] false []]).1 = true ↔
      ∃ c ∈ [Route.mk "a" [] [] [] [] false []],
        matchesAlert (fun _ _ => Option.none) c [("severity", "critical")] = true ∧
          c.continueFlag = false) := by
  constructor
  · decide
  · exact ((axe_C1.1 (fun _ _ => Option.none) [("severity", "critical")]
      "root" [] [] [] [] true [.mk "a" [] [] [] [] false []] (by decide)).2).1

/-- C2: when a matched node's child list splits as `pre ++ c :: post` where
no route of `pre` both matches and stops, while `c` matches and has
`continue = false`, the traversal of the node yields exactly the
contributions of `pre` followed by those of `c`: the receivers of matched
children before the stop are retained, the node's own receiver is
suppressed, and the result does not depend on `post` — the later siblings
are never evaluated. -/
theorem axe_C2 (research : String → String → Option Bool)
    (labels : List (String × String)) (recv : String) (gb : List String)
    (m mre : List (String × String)) (ms : List String) (cont : Bool)
    (pre : List Route) (c : Route) (post : List Route)
    (hm : matchesAlert research (.mk recv gb m mre ms cont (pre ++ c :: post)) labels = true)
    (hpre : ∀ p ∈ pre, ¬(matchesAlert research p labels = true ∧ p.continueFlag = false))
    (hc : matchesAlert research c labels = true) (hcf : c.continueFlag = false) :
    traverseAndMatch research labels (.mk recv gb m mre ms cont (pre ++ c :: post)) =
      (true, (goChildren research labels pre).2 ++ (traverseAndMatch research labels c).2) := by
  rw [traverseAndMatch_eq research labels recv gb m mre ms cont (pre ++ c :: post) hm]
  rw [goChildren_append_no_stop research labels pre (c :: post) hpre]
  rw [goChildren_cons_stop research labels c post hc hcf]
  simp

/-- Witness for C2: root with children `[p, c, q]`, where `p` matches with
`continue = true`, `c` matches with `continue = false`, and `q` is a later
sibling; the result retains the contributions of `p` and `c` only and the
root receiver is suppressed. -/
theorem axe_C2_witness :
    matchesAlert (fun _ _ => Option.none)
      (.mk "root" [] [] [] [] true
        [.mk "p" [] [("severity", "critical")] [] [] true [],
         .mk "c" [] [("severity", "critical")] [] [] false [],
         .mk "q" [] [] [] [] false []])
      [("severity", "critical")] = true ∧
    traverseAndMatch (fun _ _ => Option.none) [("severity", "critical")]
      (.mk "root" [] [] [] [] true
        [.mk "p" [] [("severity", "critical")] [] [] true [],
         .mk "c" [] [("severity", "critical")] [] [] false [],
         .mk "q" [] [] [] [] false []]) =
      (true,
        (goChildren (fun _ _ => Option.none) [("severity", "critical")]
          [Route.mk "p" [] [("severity", "critical")] [] [] true []]).2 ++
        (traverseAndMatch (fun _ _ => Option.none) [("severity", "critical")]
          (Route.mk "c" [] [("severity", "critical")] [] [] false [])).2) := by
  constructor
  · decide
  · exact axe_C2 (fun _ _ => Option.none) [("severity", "critical")] "root" [] [] [] [] true
      [Route.mk "p" [] [("severity", "critical")] [] [] true []]
      (Route.mk "c" [] [("severity", "critical")] [] [] false [])
      [Route.mk "q" [] [] [] [] false []]
      (by decide) (by decide) (by decide) (by decide)

/-- C10: if the root does not match, evaluation returns the empty list — no
fallback receiver at all; and every receiver in the returned list lies on a
chain of nodes from the root each of which matched the alert. -/
theorem axe_C10 :
    (∀ (research : String → String → Option Bool)
        (labels : List (String × String)) (r : Route),
      matchesAlert research r labels = false →
        evaluateAlert research r labels = []) ∧
    (∀ (research : String → String → Option Bool)
        (labels : List (String × String)) (r : Route) (x : String),
      x ∈ evaluateAlert research r labels → MatchedChain research labels r x) := by
  constructor
  · intro research labels r hm
    unfold evaluateAlert
    rw [traverseAndMatch_not_matched research labels r hm]
    rfl
  · intro research labels r x hx
    unfold evaluateAlert at hx
    rw [mem_sortedDedup] at hx
    exact mem_traverse_chain research labels r x hx

/-- Witness for C10: a root whose `match` constraint fails yields `[]`, and
the member `"root"` of a matching root's result lies on a matched chain. -/
theorem axe_C10_witness :
    matchesAlert (fun _ _ => Option.none)
      (.mk "root" [] [("a", "b")] [] [] true []) [] = false ∧
    evaluateAlert (fun _ _ => Option.none)
      (.mk "root" [] [("a", "b")] [] [] true []) [] = [] ∧
    "root" ∈ evaluateAlert (fun _ _ => Option.none)
      (.mk "root" [] [] [] [] true []) [] ∧
    MatchedChain (fun _ _ => Option.none) []
      (.mk "root" [] [] [] [] true []) "root" := by
  refine ⟨by decide, ?_, by decide, ?_⟩
  · exact axe_C10.1 (fun _ _ => Option.none) []
      (.mk "root" [] [("a", "b")] [] [] true []) (by decide)
  · exact axe_C10.2 (fun _ _ => Option.none) []
      (.mk "root" [] [] [] [] true []) "root" (by decide)

/-- C3: a `matchers` entry that fails to parse evaluates to non-match; so
does one whose `=~`/`!~` pattern is an invalid regex (engine raises); a
failing matcher entry or an invalid `match_re` pattern makes the whole node
non-matching; and a non-matching node contributes nothing while evaluation of
the remaining siblings continues and still produces a result. -/
theorem axe_C3 :
    (∀ (research : String → String → Option Bool) (s : String)
        (labels : List (String × String)),
      matchRegexParse s = Option.none →
        evaluateMatcherString research s labels = false) ∧
    (∀ (research : String → String → Option Bool) (s label op pv : String)
        (labels : List (String × String)),
      matchRegexParse s = some (label, op, pv) → (op = "=~" ∨ op = "!~") →
        research (String.mk (stripQuotes pv.data)) (lookupD labels label) = Option.none →
        evaluateMatcherString research s labels = false) ∧
    (∀ (research : String → String → Option Bool) (r : Route)
        (labels : List (String × String)) (s : String),
      s ∈ r.matchers → evaluateMatcherString research s labels = false →
        matchesAlert research r labels = false) ∧
    (∀ (research : String → String → Option Bool) (r : Route)
        (labels : List (String × String)) (k p : String),
      (k, p) ∈ r.matchRe → research p (lookupD labels k) = Option.none →
        matchesAlert research r labels = false) ∧
    (∀ (research : String → String → Option Bool)
        (labels : List (String × String)) (c : Route) (rest : List Route),
      matchesAlert research c labels = false →
        traverseAndMatch research labels c = (false, []) ∧
        goChildren research labels (c :: rest) = goChildren research labels rest) := by
  refine ⟨?_, ?_, ?_, ?_, ?_⟩
  · intro research s labels hparse
    simp [evaluateMatcherString, hparse]
  · intro research s label op pv labels hparse hop hres
    simp only [evaluateMatcherString, hparse]
    rcases hop with rfl | rfl
    · simp [searchBool, hres]
    · simp [hres]
  · intro research r labels s hmem heval
    unfold matchesAlert
    have : (r.matchers.all fun m => evaluateMatcherString research m labels) = false := by
      rw [List.all_eq_false]
      exact ⟨s, hmem, by simp [heval]⟩
    simp [this]
  · intro research r labels k p hmem hres
    unfold matchesAlert
    have : (r.matchRe.all fun kv =>
        searchBool research kv.2 (lookupD labels kv.1)) = false := by
      rw [List.all_eq_false]
      exact ⟨(k, p), hmem, by simp [searchBool, hres]⟩
    simp [this]
  · intro research labels c rest hm
    have h1 := traverseAndMatch_not_matched research labels c hm
    constructor
    · exact h1
    · simp only [goChildren, h1]
      simp

/-- Witness for C3: the unparsable entry `"b@d"`, an invalid-regex entry
`"job =~ .*web.*"` under an engine that raises, a node carrying each, and
continuation past a non-matching sibling. -/
theorem axe_C3_witness :
    matchRegexParse "b@d" = Option.none ∧
    evaluateMatcherString (fun _ _ => Option.none) "b@d" [] = false ∧
    evaluateMatcherString (fun _ _ => Option.none) "job =~ .*web.*" [] = false ∧
    matchesAlert (fun _ _ => Option.none)
      (.mk "x" [] [] [] ["b@d"] true []) [] = false ∧
    matchesAlert (fun _ _ => Option.none)
      (.mk "x" [] [] [("lbl", "(")] [] true []) [] = false ∧
    goChildren (fun _ _ => Option.none) []
      [Route.mk "x" [] [("a", "b")] [] [] true [], Route.mk "y" [] [] [] [] true []] =
      goChildren (fun _ _ => Option.none) [] [Route.mk "y" [] [] [] [] true []] := by
  refine ⟨by decide, ?_, ?_, ?_, ?_, ?_⟩
  · exact axe_C3.1 (fun _ _ => Option.none) "b@d" [] (by decide)
  · exact axe_C3.2.1 (fun _ _ => Option.none) "job =~ .*web.*" "job" "=~" ".*web.*" []
      (by decide) (Or.inl rfl) rfl
  · exact axe_C3.2.2.1 (fun _ _ => Option.none)
      (.mk "x" [] [] [] ["b@d"] true []) [] "b@d" (by decide)
      (axe_C3.1 (fun _ _ => Option.none) "b@d" [] (by decide))
  · exact axe_C3.2.2.2.1 (fun _ _ => Option.none)
      (.mk "x" [] [] [("lbl", "(")] [] true []) [] "lbl" "(" (by decide) rfl
  · exact (axe_C3.2.2.2.2 (fun _ _ => Option.none) []
      (Route.mk "x" [] [("a", "b")] [] [] true [])
      [Route.mk "y" [] [] [] [] true []] (by decide)).2

/-- C4: during one assembly pass, adding a receiver whose name is already
registered leaves the master map unchanged, appends exactly the one
duplicate-name issue naming the source of the original entry, and returns
normally; a receiver whose `name` is absent or falsy (empty) appends exactly
the one missing-name issue and registers nothing. -/
theorem axe_C4 :
    (∀ (master : List (String × MasterEntry)) (issues : List String)
        (receiverData : List (String × PyVal)) (sourceFile nm : String)
        (entry : MasterEntry),
      pyGet receiverData "name" = some (.str nm) → nm ≠ "" →
      masterLookup master nm = some entry →
      addReceiverToMasterList master issues receiverData sourceFile =
        (master, issues ++ [duplicateNameMsg nm entry.sourceFile sourceFile])) ∧
    (∀ (master : List (String × MasterEntry)) (issues : List String)
        (receiverData : List (String × PyVal)) (sourceFile : String),
      (pyGet receiverData "name" = Option.none ∨
        ∃ v, pyGet receiverData "name" = some v ∧ truthy v = false) →
      addReceiverToMasterList master issues receiverData sourceFile =
        (master, issues ++ [missingNameMsg sourceFile])) := by
  constructor
  · intro master issues receiverData sourceFile nm entry hget hne hlook
    unfold addReceiverToMasterList
    rw [hget]
    simp only [Option.getD_some]
    have ht : truthy (.str nm) = true := by
      simp [truthy, hne]
    rw [ht]
    simp only [Bool.not_true, Bool.false_eq_true, if_false]
    have hs : (!PyVal.isStr (.str nm) || PyVal.strVal (.str nm) == "") = false := by
      simp [PyVal.isStr, PyVal.strVal, hne]
    rw [hs]
    simp only [Bool.false_eq_true, if_false, PyVal.strVal]
    rw [hlook]
  · intro master issues receiverData sourceFile hmiss
    unfold addReceiverToMasterList
    rcases hmiss with hnone | ⟨v, hget, hfalse⟩
    · rw [hnone]
      simp [truthy]
    · rw [hget]
      simp only [Option.getD_some, hfalse]
      simp

/-- Witness for C4: one duplicate insertion and one missing-name insertion at
concrete values. -/
theorem axe_C4_witness :
    pyGet [("name", PyVal.str "x")] "name" = some (.str "x") ∧
    masterLookup [("x", ⟨[("name", PyVal.str "x")], "a.yaml"⟩)] "x" =
      some ⟨[("name", PyVal.str "x")], "a.yaml"⟩ ∧
    addReceiverToMasterList [("x", ⟨[("name", PyVal.str "x")], "a.yaml"⟩)] []
      [("name", PyVal.str "x")] "b.yaml" =
      ([("x", ⟨[("name", PyVal.str "x")], "a.yaml"⟩)],
        [duplicateNameMsg "x" "a.yaml" "b.yaml"]) ∧
    addReceiverToMasterList [] [] [("name", PyVal.str "")] "c.yaml" =
      ([], [missingNameMsg "c.yaml"]) := by
  refine ⟨rfl, rfl, ?_, ?_⟩
  · exact axe_C4.1 [("x", ⟨[("name", PyVal.str "x")], "a.yaml"⟩)] []
      [("name", PyVal.str "x")] "b.yaml" "x" ⟨[("name", PyVal.str "x")], "a.yaml"⟩
      rfl (by decide) rfl
  · exact axe_C4.2 [] [] [("name", PyVal.str "")] "c.yaml"
      (Or.inr ⟨.str "", rfl, rfl⟩)

/-- C5 counterexample: the issue recorded for an unresolved
environment-variable reference starts with `"Error:"`, so it is fatal — a
pass whose only issue is such a reference does not produce the output
document, contradicting the claimed non-fatality. -/
theorem axe_C5_counterexample :
    replaceEnvVars [] [] (.str "$token") =
      (.str "$token", [envVarMsg "TOKEN" "$token"]) ∧
    pyStartsWith (envVarMsg "TOKEN" "$token") "Error:" = true ∧
    hasFatalErrors [envVarMsg "TOKEN" "$token"] = true ∧
    renderProceedsToWrite [envVarMsg "TOKEN" "$token"] = false :=
  ⟨rfl, by decide, by decide, by decide⟩

/-- C5 amended: a scalar string beginning with `$` has its remainder
upper-cased and looked up in the environment, and is substituted when found;
when the variable is absent, one issue is recorded and the literal string is
retained — but the issue is tagged `"Error:"` and is therefore fatal: a pass
whose issues include it produces no output document. -/
theorem axe_C5_amended :
    (∀ (env : List (String × String)) (issues : List String) (s : String)
        (e : String × String),
      pyStartsWith s "$" = true →
      (env.find? fun x => x.1 == pyUpper (s.drop 1)) = some e →
      replaceEnvVars env issues (.str s) = (.str e.2, issues)) ∧
    (∀ (env : List (String × String)) (issues : List String) (s : String),
      pyStartsWith s "$" = true →
      (env.find? fun x => x.1 == pyUpper (s.drop 1)) = Option.none →
      replaceEnvVars env issues (.str s) =
        (.str s, issues ++ [envVarMsg (pyUpper (s.drop 1)) s]) ∧
      renderProceedsToWrite (issues ++ [envVarMsg (pyUpper (s.drop 1)) s]) = false) := by
  constructor
  · intro env issues s e hdollar hfind
    unfold replaceEnvVars
    rw [hdollar]
    simp only [if_true, hfind]
  · intro env issues s hdollar hfind
    constructor
    · unfold replaceEnvVars
      rw [hdollar]
      simp only [if_true, hfind]
    · exact renderProceedsToWrite_append_fatal issues _ (envVarMsg_fatal _ s)

/-- Witness for C5 amended: substitution with the variable present, and the
fatal unresolved case. -/
theorem axe_C5_amended_witness :
    pyStartsWith "$token" "$" = true ∧
    replaceEnvVars [("TOKEN", "abc")] [] (.str "$token") = (.str "abc", []) ∧
    replaceEnvVars [] [] (.str "$token") =
      (.str "$token", [envVarMsg (pyUpper "token") "$token"]) ∧
    renderProceedsToWrite [envVarMsg (pyUpper "token") "$token"] = false := by
  refine ⟨by decide, ?_, ?_, ?_⟩
  · exact axe_C5_amended.1 [("TOKEN", "abc")] [] "$token" ("TOKEN", "abc")
      (by decide) (by decide)
  · exact (axe_C5_amended.2 [] [] "$token" (by decide) (by decide)).1
  · exact (axe_C5_amended.2 [] [] "$token" (by decide) (by decide)).2

/-- C6: evaluating the fragment-processing code on a `routes` value that is a
single mapping.  For the typical mapping `{receiver: team-x}` the
fall-through `enumerate` loop iterates the mapping's keys and validating the
key string `"receiver"` raises `TypeError` (uncaught — processing of the
file does not continue); for a mapping whose keys avoid the substrings
`"receiver"`/`"routes"` no exception is raised but the mapping's keys are
additionally appended to the collected routes, so more than the one route is
collected.  Both contradict the claimed behave-as-one-element-sequence
semantics; the code's own comment and log message show the intent. -/
theorem axe_C6_bug :
    processRoutesComponent [] [] [] (.dict [("receiver", .str "team-x")]) "frag.yaml" =
      .error "TypeError: string indices must be integers" ∧
    processRoutesComponent [] [] [] (.dict [("group_by", .list [])]) "frag.yaml" =
      .ok ([.dict [("group_by", .list [])], .str "group_by"], []) := by
  constructor
  · simp only [processRoutesComponent, validateRouteRef, receiverPhase,
      validateDictKeysLoop, pyGet, masterLookup]
    rfl
  · simp only [processRoutesComponent, validateRouteRef, receiverPhase,
      validateDictKeysLoop, pyGet, masterLookup]
    rfl

/-- C7 counterexample: with no fragment routes discovered, the base document's
root route `receiver` is never checked — an undefined root receiver
(`"ghost"`, empty registry) yields no issue and the pass still writes
output, contradicting "in every assembly pass ... regardless of whether any
fragment routes were discovered". -/
theorem axe_C7_counterexample :
    renderRootReceiverCheck [] [] [("receiver", .str "ghost")] [] "cfg/base.yaml" = [] ∧
    renderProceedsToWrite
      (renderRootReceiverCheck [] [] [("receiver", .str "ghost")] [] "cfg/base.yaml") =
      true := ⟨rfl, rfl⟩

/-- C7 amended: the root-receiver cross-check runs only when at least one
fragment route was discovered; with no fragment routes it is skipped
entirely.  When it does run, a root `receiver` naming an undefined receiver,
or a non-string or empty root `receiver`, appends a fatal issue that makes
the pass fail with no output document. -/
theorem axe_C7_amended :
    (∀ (master : List (String × MasterEntry)) (issues : List String)
        (root : List (String × PyVal)) (base : String),
      renderRootReceiverCheck master issues root [] base = issues) ∧
    (∀ (master : List (String × MasterEntry)) (issues : List String)
        (root : List (String × PyVal)) (frs : List PyVal) (base nm : String),
      frs ≠ [] → pyGet root "receiver" = some (.str nm) → nm ≠ "" →
      masterLookup master nm = Option.none →
      renderRootReceiverCheck master issues root frs base =
        issues ++ [rootUndefinedReceiverMsg nm base] ∧
      renderProceedsToWrite (issues ++ [rootUndefinedReceiverMsg nm base]) = false) ∧
    (∀ (master : List (String × MasterEntry)) (issues : List String)
        (root : List (String × PyVal)) (frs : List PyVal) (base : String)
        (v : PyVal),
      frs ≠ [] → pyGet root "receiver" = some v →
      (PyVal.isStr v = false ∨ PyVal.strVal v = "") →
      renderRootReceiverCheck master issues root frs base =
        issues ++ [rootInvalidReceiverMsg base] ∧
      renderProceedsToWrite (issues ++ [rootInvalidReceiverMsg base]) = false) := by
  refine ⟨?_, ?_, ?_⟩
  · intro master issues root base
    unfold renderRootReceiverCheck
    simp
  · intro master issues root frs base nm hfr hget hne hlook
    have hfr' : frs.isEmpty = false := by
      cases frs with
      | nil => exact absurd rfl hfr
      | cons a l => rfl
    have hs : (!PyVal.isStr (.str nm) || PyVal.strVal (.str nm) == "") = false := by
      simp [PyVal.isStr, PyVal.strVal, hne]
    constructor
    · simp only [renderRootReceiverCheck, hfr', Bool.false_eq_true, if_false,
        hget, hs]
      have hsv : PyVal.strVal (.str nm) = nm := rfl
      rw [hsv, hlook]
      simp
    · exact renderProceedsToWrite_append_fatal issues _
        (rootUndefinedReceiverMsg_fatal nm base)
  · intro master issues root frs base v hfr hget hbad
    have hfr' : frs.isEmpty = false := by
      cases frs with
      | nil => exact absurd rfl hfr
      | cons a l => rfl
    have hs : (!PyVal.isStr v || PyVal.strVal v == "") = true := by
      rcases hbad with h | h <;> simp [h]
    constructor
    · simp only [renderRootReceiverCheck, hfr', Bool.false_eq_true, if_false,
        hget, hs, if_true]
    · exact renderProceedsToWrite_append_fatal issues _
        (rootInvalidReceiverMsg_fatal base)

/-- Witness for C7 amended: skipped check with no fragment routes; fatal
undefined-root-receiver issue with one fragment route present. -/
theorem axe_C7_amended_witness :
    renderRootReceiverCheck [] [] [("receiver", .str "ghost")] [] "cfg/base.yaml" = [] ∧
    renderRootReceiverCheck [] [] [("receiver", .str "ghost")]
      [.dict []] "cfg/base.yaml" = [rootUndefinedReceiverMsg "ghost" "cfg/base.yaml"] ∧
    renderProceedsToWrite [rootUndefinedReceiverMsg "ghost" "cfg/base.yaml"] = false := by
  refine ⟨axe_C7_amended.1 [] [] [("receiver", .str "ghost")] "cfg/base.yaml", ?_, ?_⟩
  · exact (axe_C7_amended.2.1 [] [] [("receiver", .str "ghost")] [.dict []]
      "cfg/base.yaml" "ghost" (List.cons_ne_nil _ _) rfl (by decide) rfl).1
  · exact (axe_C7_amended.2.1 [] [] [("receiver", .str "ghost")] [.dict []]
      "cfg/base.yaml" "ghost" (List.cons_ne_nil _ _) rfl (by decide) rfl).2

/-- C8 counterexample: in the evaluator's tree a NON-root node with no
`receiver` key gets `"default"`, not the empty string; in the display tree
the ROOT gets the empty string, not the default receiver name.  The claimed
root/non-root asymmetry exists in neither constructor. -/
theorem axe_C8_counterexample :
    Route.receiver (buildRoute false
      (.mk Option.none [] [] [] [] Option.none "" "" "" [])) = "default" ∧
    ("default" : String) ≠ "" ∧
    TreeRoute.receiver (buildTreeRoute
      (.mk Option.none [] [] [] [] Option.none "" "" "" [])) = "" ∧
    ("" : String) ≠ "default" := by
  refine ⟨?_, by decide, ?_, by decide⟩
  · simp [buildRoute]
  · simp [buildTreeRoute, TreeRoute.receiver]

/-- C8 amended: the default for a missing `receiver` key depends on the
class, not on the node's position: the evaluator's constructor yields
`"default"` for root and non-root nodes alike, and the display tree's
constructor yields the empty string for root and non-root nodes alike. -/
theorem axe_C8_amended (d : RouteData) (b : Bool)
    (h : RouteData.receiver d = Option.none) :
    Route.receiver (buildRoute b d) = "default" ∧
    TreeRoute.receiver (buildTreeRoute d) = "" := by
  cases d with
  | mk r g mkv mre ms c gw gi ri rts =>
    have hr : r = Option.none := h
    subst hr
    constructor
    · simp [buildRoute]
    · simp [buildTreeRoute, TreeRoute.receiver]

/-- Witness for C8 amended at a concrete receiver-less document node. -/
theorem axe_C8_amended_witness :
    RouteData.receiver (.mk Option.none [] [] [] [] Option.none "" "" "" []) =
      Option.none ∧
    Route.receiver (buildRoute true
      (.mk Option.none [] [] [] [] Option.none "" "" "" [])) = "default" ∧
    TreeRoute.receiver (buildTreeRoute
      (.mk Option.none [] [] [] [] Option.none "" "" "" [])) = "" := by
  refine ⟨rfl, ?_, ?_⟩
  · exact (axe_C8_amended (.mk Option.none [] [] [] [] Option.none "" "" "" [])
      true rfl).1
  · exact (axe_C8_amended (.mk Option.none [] [] [] [] Option.none "" "" "" [])
      true rfl).2

/-- C9 counterexample: adding one trailing space after the value changes the
evaluation result — the parsing regex's greedy `(.*)` captures trailing
whitespace into the value group, so `severity = critical ` compares against
`"critical "` and fails where `severity = critical` succeeds. -/
theorem axe_C9_counterexample :
    evaluateMatcherString (fun _ _ => Option.none) "severity = critical"
      [("severity", "critical")] = true ∧
    evaluateMatcherString (fun _ _ => Option.none) "severity = critical "
      [("severity", "critical")] = false ∧
    matchRegexParse "severity = critical " = some ("severity", "=", "critical ") :=
  ⟨by decide, by decide, by decide⟩

/-- C9 amended: whitespace before the label, around the operator and before
the value is insignificant (provided the value does not itself begin with an
operator character, which the greedy operator scan would otherwise absorb);
trailing whitespace after the value is captured as part of the value group
and can therefore change the result; and a double-quoted value with no
trailing whitespace evaluates the same as the identical unquoted value
because the quotes are stripped before comparison. -/
theorem axe_C9_amended :
    (∀ (w0 w1 w2 : List Char) (c : Char) (cs op rest : List Char),
      (∀ x ∈ w0, isPyWs x = true) → (∀ x ∈ w1, isPyWs x = true) →
      (∀ x ∈ w2, isPyWs x = true) →
      isIdentStart c = true → (∀ x ∈ cs, isIdentChar x = true) →
      op ≠ [] → (∀ x ∈ op, isOpChar x = true) →
      headNotP isOpChar rest →
      ∀ (research : String → String → Option Bool)
        (labels : List (String × String)),
        evaluateMatcherString research
          (String.mk (w0 ++ (c :: cs) ++ w1 ++ op ++ w2 ++ rest)) labels =
        evaluateMatcherString research
          (String.mk ((c :: cs) ++ op ++ rest)) labels) ∧
    (∀ (c : Char) (cs op : List Char) (d : Char) (v w : List Char),
      isIdentStart c = true → (∀ x ∈ cs, isIdentChar x = true) →
      op ≠ [] → (∀ x ∈ op, isOpChar x = true) →
      isPyWs d = false → isOpChar d = false →
      (∀ x ∈ d :: v, x ≠ '\n') →
      (∀ x ∈ w, isPyWs x = true) → (∀ x ∈ w, x ≠ '\n') →
      matchRegexParse (String.mk ((c :: cs) ++ op ++ (d :: v) ++ w)) =
        some (String.mk (c :: cs), String.mk op, String.mk ((d :: v) ++ w))) ∧
    (∀ (c : Char) (cs op v : List Char),
      isIdentStart c = true → (∀ x ∈ cs, isIdentChar x = true) →
      op ≠ [] → (∀ x ∈ op, isOpChar x = true) →
      headNotP isPyWs v → headNotP isOpChar v → (∀ x ∈ v, x ≠ '\n') →
      ¬(v.head? = some '"' ∧ v.getLast? = some '"') →
      ∀ (research : String → String → Option Bool)
        (labels : List (String × String)),
        evaluateMatcherString research
          (String.mk ((c :: cs) ++ op ++ ('"' :: (v ++ ['"'])))) labels =
        evaluateMatcherString research (String.mk ((c :: cs) ++ op ++ v)) labels) := by
  refine ⟨?_, ?_, ?_⟩
  · intro w0 w1 w2 c cs op rest hw0 hw1 hw2 hc hcs hop hopc hrest research labels
    apply evaluateMatcherString_congr
    rw [show w0 ++ (c :: cs) ++ w1 ++ op ++ w2 ++ rest =
      w0 ++ (c :: cs) ++ w1 ++ op ++ (w2 ++ rest) by simp [List.append_assoc]]
    rw [matchRegexParse_general w0 w1 c cs op (w2 ++ rest) hw0 hw1 hc hcs hop hopc
      (headNotP_append_ws_op rest hw2 hrest)]
    rw [show (c :: cs) ++ op ++ rest = [] ++ (c :: cs) ++ [] ++ op ++ rest by simp]
    rw [matchRegexParse_general [] [] c cs op rest (by simp) (by simp) hc hcs hop
      hopc hrest]
    simp only [dropWhile_append_all isPyWs w2 rest hw2]
  · intro c cs op d v w hc hcs hop hopc hd hdop hnl hw hwnl
    rw [show (c :: cs) ++ op ++ (d :: v) ++ w =
      [] ++ (c :: cs) ++ [] ++ op ++ ((d :: v) ++ w) by simp [List.append_assoc]]
    rw [matchRegexParse_general [] [] c cs op ((d :: v) ++ w) (by simp) (by simp)
      hc hcs hop hopc (by exact hdop)]
    have hr : List.dropWhile isPyWs ((d :: v) ++ w) = (d :: v) ++ w := by
      simp only [List.cons_append, List.dropWhile_cons, hd]
      simp
    have hall : ∀ x ∈ (d :: v) ++ w, (x != '\n') = true := by
      intro x hx
      rcases List.mem_append.1 hx with h1 | h1
      · simp [hnl x h1]
      · simp [hwnl x h1]
    have hvalue : List.takeWhile (fun x => x != '\n') ((d :: v) ++ w) =
        (d :: v) ++ w := takeWhile_all_eq_self _ _ hall
    have htail : List.dropWhile (fun x => x != '\n') ((d :: v) ++ w) = [] :=
      dropWhile_all_eq_nil _ _ hall
    simp only [hr, hvalue, htail]
    simp
  · intro c cs op v hc hcs hop hopc hvws hvop hvnl hquote research labels
    have hq1 : matchRegexParse (String.mk ((c :: cs) ++ op ++ ('"' :: (v ++ ['"'])))) =
        some (String.mk (c :: cs), String.mk op, String.mk ('"' :: (v ++ ['"']))) := by
      rw [show (c :: cs) ++ op ++ ('"' :: (v ++ ['"'])) =
        [] ++ (c :: cs) ++ [] ++ op ++ ('"' :: (v ++ ['"'])) by simp]
      rw [matchRegexParse_general [] [] c cs op ('"' :: (v ++ ['"'])) (by simp)
        (by simp) hc hcs hop hopc (by exact rfl)]
      have hr : List.dropWhile isPyWs ('"' :: (v ++ ['"'])) = '"' :: (v ++ ['"']) := by
        rw [List.dropWhile_cons]
        have hq : isPyWs '"' = false := by decide
        simp [hq]
      have hall : ∀ x ∈ '"' :: (v ++ ['"']), (x != '\n') = true := by
        intro x hx
        rcases List.mem_cons.1 hx with rfl | hx'
        · decide
        · rcases List.mem_append.1 hx' with h1 | h1
          · simp [hvnl x h1]
          · rcases List.mem_singleton.1 h1 with rfl
            decide
      have hvalue : List.takeWhile (fun x => x != '\n') ('"' :: (v ++ ['"'])) =
          '"' :: (v ++ ['"']) := takeWhile_all_eq_self _ _ hall
      have htail : List.dropWhile (fun x => x != '\n') ('"' :: (v ++ ['"'])) = [] :=
        dropWhile_all_eq_nil _ _ hall
      simp only [hr, hvalue, htail]
      simp
    have hq2 : matchRegexParse (String.mk ((c :: cs) ++ op ++ v)) =
        some (String.mk (c :: cs), String.mk op, String.mk v) := by
      rw [show (c :: cs) ++ op ++ v = [] ++ (c :: cs) ++ [] ++ op ++ v by simp]
      rw [matchRegexParse_general [] [] c cs op v (by simp) (by simp) hc hcs hop
        hopc hvop]
      have hr : List.dropWhile isPyWs v = v := by
        cases v with
        | nil => rfl
        | cons d vs =>
          have hd : isPyWs d = false := hvws
          rw [List.dropWhile_cons]
          simp [hd]
      have hall : ∀ x ∈ v, (x != '\n') = true := by
        intro x hx
        simp [hvnl x hx]
      have hvalue : List.takeWhile (fun x => x != '\n') v = v :=
        takeWhile_all_eq_self _ _ hall
      have htail : List.dropWhile (fun x => x != '\n') v = [] :=
        dropWhile_all_eq_nil _ _ hall
      simp only [hr, hvalue, htail]
      simp
    have hstrip1 : stripQuotes ('"' :: (v ++ ['"'])) = v := by
      unfold stripQuotes
      have hlast : ('"' :: (v ++ ['"'])).getLast? = some '"' := by
        rw [show '"' :: (v ++ ['"']) = ('"' :: v) ++ ['"'] by simp]
        exact List.getLast?_concat _
      rw [hlast]
      simp only [List.head?_cons, beq_self_eq_true, Bool.and_true, if_true]
      rw [show ('"' :: (v ++ ['"'])).drop 1 = v ++ ['"'] from rfl]
      exact List.dropLast_concat
    have hstrip2 : stripQuotes v = v := by
      unfold stripQuotes
      have hcond : (v.head? == some '"' && v.getLast? == some '"') = false := by
        cases hb : (v.head? == some '"' && v.getLast? == some '"') with
        | false => rfl
        | true =>
          exfalso
          simp only [Bool.and_eq_true, beq_iff_eq] at hb
          exact hquote hb
      rw [hcond]
      simp
    unfold evaluateMatcherString
    rw [hq1, hq2]
    simp only [data_mk, hstrip1, hstrip2]

/-- Witness for C9 amended at concrete inputs: inserting whitespace around
the operator, leading whitespace before the value, and double quotes, all
preserve the result; a concrete trailing-whitespace parse captures the
whitespace into the value. -/
theorem axe_C9_amended_witness :
    evaluateMatcherString (fun _ _ => Option.none)
      (String.mk (" ".data ++ ('s' :: "everity".data) ++ " ".data ++ "=".data ++
        " ".data ++ "critical".data)) [("severity", "critical")] =
    evaluateMatcherString (fun _ _ => Option.none)
      (String.mk (('s' :: "everity".data) ++ "=".data ++ "critical".data))
      [("severity", "critical")] ∧
    matchRegexParse (String.mk (('s' :: "everity".data) ++ "=".data ++
      ('c' :: "ritical".data) ++ " ".data)) =
      some (String.mk ('s' :: "everity".data), String.mk "=".data,
        String.mk (('c' :: "ritical".data) ++ " ".data)) ∧
    evaluateMatcherString (fun _ _ => Option.none)
      (String.mk (('s' :: "everity".data) ++ "=".data ++
        ('"' :: ("critical".data ++ ['"'])))) [("severity", "critical")] =
    evaluateMatcherString (fun _ _ => Option.none)
      (String.mk (('s' :: "everity".data) ++ "=".data ++ "critical".data))
      [("severity", "critical")] := by
  refine ⟨?_, ?_, ?_⟩
  · exact axe_C9_amended.1 " ".data " ".data " ".data 's' "everity".data "=".data
      "critical".data (by decide) (by decide) (by decide) (by decide) (by decide)
      (by decide) (by decide) (show isOpChar 'c' = false by decide)
      (fun _ _ => Option.none) [("severity", "critical")]
  · exact axe_C9_amended.2.1 's' "everity".data "=".data 'c' "ritical".data
      " ".data (by decide) (by decide) (by decide) (by decide) (by decide)
      (by decide) (by decide) (by decide) (by decide)
  · exact axe_C9_amended.2.2 's' "everity".data "=".data "critical".data
      (by decide) (by decide) (by decide) (by decide)
      (show isPyWs 'c' = false by decide) (show isOpChar 'c' = false by decide)
      (by decide) (by decide) (fun _ _ => Option.none) [("severity", "critical")]

end Axe
